import Mathlib

/-!
Verification of the rslurp downloader (src/rslurp/rslurp.go) against its
specification.  The Go source is shallowly embedded: pure path arithmetic
(Go stdlib functions `path.Base`, `path.Clean`, `path.Join` used by the
source) becomes Lean functions on `String` (computed on the underlying
character lists so that every definition evaluates inside the kernel);
the transfer routine `slurp` becomes a function from its environment
(flags, sink capabilities, the filesystem visible through `os.Stat`) and
one HTTP exchange to a record of the observable actions it performs (sink
opens, writes, counter updates, returned error); the worker loop `slurper`
becomes a fold over its order list; the link filter inside `downloadDirs`
and the tail of `main` become functions as well.
-/

/-- Split a character list on '/' (Go `strings.Split`-style: a list of
components, empty components preserved). -/
def splitSlash : List Char → List (List Char)
  | [] => [[]]
  | c :: rest =>
    let r := splitSlash rest
    if c = '/' then [] :: r
    else
      match r with
      | [] => [[c]]
      | g :: gs => (c :: g) :: gs

/-- Join components with '/' (inverse direction of `splitSlash`). -/
def joinSlash : List (List Char) → List Char
  | [] => []
  | [g] => g
  | g :: gs => g ++ '/' :: joinSlash gs

/-- Drop trailing '/' characters (the strip loop of Go `path.Base`). -/
def dropTrailingSlashes (l : List Char) : List Char :=
  (l.reverse.dropWhile (fun c => c = '/')).reverse

/-- Go `path.Base` (stdlib, used at rslurp.go:66): empty input gives ".",
trailing slashes are stripped, the part after the last '/' is returned,
and an all-slash input gives "/". -/
def goPathBase (p : String) : String :=
  if p.data = [] then "."
  else
    let q := dropTrailingSlashes p.data
    if q = [] then "/"
    else String.mk ((splitSlash q).getLastD q)

/-- Go `path.Clean`'s lexical component processing: empty and "."
components vanish, ".." pops a previous real component, cannot climb
above the root of a rooted path, and is kept when a relative path would
climb above its start.  `acc` holds processed components reversed. -/
def cleanComps (rooted : Bool) : List (List Char) → List (List Char) → List (List Char)
  | acc, [] => acc.reverse
  | acc, c :: rest =>
    if c = [] ∨ c = ['.'] then cleanComps rooted acc rest
    else if c = ['.', '.'] then
      match acc with
      | [] => if rooted then cleanComps rooted [] rest
              else cleanComps rooted [['.', '.']] rest
      | a :: as =>
        if a = ['.', '.'] then cleanComps rooted (['.', '.'] :: a :: as) rest
        else cleanComps rooted as rest
    else cleanComps rooted (c :: acc) rest

/-- Go `path.Clean` (stdlib, reached through `path.Join` at rslurp.go:67). -/
def goPathClean (p : String) : String :=
  if p.data = [] then "."
  else
    let rooted := p.data.head? = some '/'
    let body := joinSlash (cleanComps (p.data.head? = some '/') [] (splitSlash p.data))
    if rooted then String.mk ('/' :: body)
    else if body = [] then "." else String.mk body

/-- Go `path.Join` on two elements (stdlib, rslurp.go:67): empty elements
are skipped, the rest are joined with '/' and the result is cleaned. -/
def goPathJoin (a b : String) : String :=
  if a.data = [] ∧ b.data = [] then ""
  else if a.data = [] then goPathClean b
  else if b.data = [] then goPathClean a
  else goPathClean (String.mk (a.data ++ '/' :: b.data))

/-- rslurp.go:66-67: `fn := path.Base(o.url); fullFilename := path.Join(*out, fn)`. -/
def destPath (outDir url : String) : String :=
  goPathJoin outDir (goPathBase url)

example : goPathBase "http://example/dir/a.bin" = "a.bin" := by decide
example : goPathBase "" = "." := by decide
example : goPathBase "///" = "/" := by decide
example : goPathClean "./f.txt" = "f.txt" := by decide
example : goPathClean "/../a//b/./c" = "/a/b/c" := by decide
example : goPathClean "../../x" = "../../x" := by decide
example : destPath "." "http://example/dir/a.bin" = "a.bin" := by decide
example : destPath "out" "http://h/d/f.txt" = "out/f.txt" := by decide

/-- Sink capabilities (the `fileout.FileOut` interface as used by
rslurp.go): `supportsResume` embeds `HasPartial()` (rslurp.go:74) and
`fixedSizeOnly` embeds `FixedSizeOnly()` (rslurp.go:103, 129). -/
structure SinkCaps where
  supportsResume : Bool
  fixedSizeOnly : Bool
deriving DecidableEq

/-- The environment `slurp` runs in: the `-n` flag (`*dryRun`), the `-out`
flag (`*out`), the selected sink's capabilities, and the filesystem as seen
through `os.Stat` (rslurp.go:75): `stat p = some n` when a file exists at
`p` with size `n`, `none` when `os.Stat` returns an error. -/
structure Env where
  dryRunFlag : Bool
  outDir : String
  caps : SinkCaps
  stat : String → Option Nat

/-- One HTTP exchange as `slurp` observes it: whether `client.Do` failed
(rslurp.go:80-83), and otherwise the response's status code, declared
`ContentLength` (negative when unknown) and body bytes. -/
structure Transfer where
  netFail : Bool
  status : Nat
  contentLength : Int
  body : List Nat
deriving DecidableEq

/-- One download order (rslurp.go:146-149) together with the exchange the
network produces for it. -/
structure OrderInput where
  url : String
  transfer : Transfer
deriving DecidableEq

/-- The errors `slurp` can return in the modelled paths: `client.Do`
failure (rslurp.go:82) and the non-{200,206,416} status error
(rslurp.go:96). -/
inductive SlurpErr where
  | netError
  | statusError (status : Nat)
deriving DecidableEq

/-- Observable actions of one `slurp` call, in program order:
`createOp`/`appendOp` are the sink's `Create`/`Append` (rslurp.go:112-114,
133), `sinkWrite` is a body copied into a sink-provided writer
(rslurp.go:123, 138), `tempWrite` is a body buffered into the scratch
temp file (rslurp.go:104-109, 123). -/
inductive Event where
  | createOp (path : String) (size : Int)
  | appendOp (path : String) (size : Int)
  | sinkWrite (data : List Nat)
  | tempWrite (data : List Nat)
deriving DecidableEq

/-- Whether an event is a sink `Append` call. -/
def Event.isAppendOp : Event → Bool
  | .appendOp _ _ => true
  | _ => false

/-- Whether an event is a sink `Create` call. -/
def Event.isCreateOp : Event → Bool
  | .createOp _ _ => true
  | _ => false

/-- Whether an event is a temp-file write. -/
def Event.isTempWrite : Event → Bool
  | .tempWrite _ => true
  | _ => false

/-- What one `slurp` call did: whether a GET was issued, the Range header
start it carried (if any), the actions performed, how much the shared
byte counter grew, and the returned error (`none` = `return nil`). -/
structure SlurpRun where
  requested : Bool
  rangeStart : Option Nat
  events : List Event
  counterDelta : Nat
  err : Option SlurpErr
deriving DecidableEq

/-- rslurp.go:62-144, `slurp`.  Dry run returns nil at once (63-65).
Otherwise the destination path is computed (66-67), the Range header is
set when the sink has resume support and the destination already exists
(74-78), the request is issued (80-83), the status dispatch runs (86-97:
200 falls through, 206 marks the transfer resumed, 416 returns nil,
anything else returns an error), then either the whole body is buffered
into a temp file and re-written through `Create` with the measured length
(103-109, 122-141, taken when the sink is fixed-size-only and no content
length was declared) or the body is streamed straight into the writer
obtained from `Append`/`Create` (110-123).  The byte counter grows by the
number of body bytes read through `readWrapper` in either case. -/
def slurp (env : Env) (o : OrderInput) : SlurpRun :=
  if env.dryRunFlag then
    { requested := false, rangeStart := none, events := [], counterDelta := 0, err := none }
  else
    let fullFilename := destPath env.outDir o.url
    let range := if env.caps.supportsResume then env.stat fullFilename else none
    if o.transfer.netFail then
      { requested := true, rangeStart := range, events := [], counterDelta := 0,
        err := some .netError }
    else if o.transfer.status = 416 then
      { requested := true, rangeStart := range, events := [], counterDelta := 0, err := none }
    else if o.transfer.status = 200 ∨ o.transfer.status = 206 then
      let resumed := o.transfer.status = 206
      let body := o.transfer.body
      if env.caps.fixedSizeOnly ∧ o.transfer.contentLength < 0 then
        { requested := true, rangeStart := range,
          events := [.tempWrite body,
                     .createOp fullFilename (Int.ofNat body.length),
                     .sinkWrite body],
          counterDelta := body.length, err := none }
      else
        { requested := true, rangeStart := range,
          events := [if resumed then .appendOp fullFilename o.transfer.contentLength
                     else .createOp fullFilename o.transfer.contentLength,
                     .sinkWrite body],
          counterDelta := body.length, err := none }
    else
      { requested := true, rangeStart := range, events := [], counterDelta := 0,
        err := some (.statusError o.transfer.status) }

/-- The UI messages a worker can emit (rslurp.go:162-165): a completed
file's address. -/
inductive UiMsg where
  | fileDone (url : String)
deriving DecidableEq

/-- State threaded through a worker loop: the run-wide failure counter
(`errorCount`, rslurp.go:37, 160), the log lines written for failed
orders (address shown via `path.Base`, with the cause — rslurp.go:159),
and the UI events sent (rslurp.go:162-165). -/
structure WorkerState where
  errorCount : Nat
  logs : List (String × SlurpErr)
  uiEvents : List UiMsg
deriving DecidableEq

/-- rslurp.go:151-168, `slurper`: for each order in turn, run `slurp`; on
error log one line naming `path.Base(order.url)` and the cause and add 1
to `errorCount`; otherwise send `fileDone` with the order's url.  The
loop always continues with the next order. -/
def slurper (env : Env) : List OrderInput → WorkerState → WorkerState
  | [], st => st
  | o :: rest, st =>
    match (slurp env o).err with
    | some e =>
      slurper env rest
        { st with errorCount := st.errorCount + 1,
                  logs := st.logs ++ [(goPathBase o.url, e)] }
    | none =>
      slurper env rest { st with uiEvents := st.uiEvents ++ [.fileDone o.url] }

/-- rslurp.go:45-49, `readWrapper.Read`: after reading `n` bytes from the
wrapped reader, add `n` to the shared counter. -/
def readWrapperRead (counter : Nat) (n : Nat) : Nat :=
  counter + n

/-- Counter value after a sequence of reads has flowed through
`readWrapper`. -/
def counterAfter (init : Nat) (reads : List Nat) : Nat :=
  reads.foldl readWrapperRead init

/-- rslurp.go:208-215, the loop body of `downloadDirs`: a link containing
'/' is skipped, a link matching the filter is appended to `d ++ link`
where `d` is the listing address with a trailing slash ensured
(rslurp.go:205-207). -/
def qualifyLoop (d : String) (matchRE : String → Bool) : List String → List String
  | [] => []
  | fn :: rest =>
    if fn.data.contains '/' then qualifyLoop d matchRE rest
    else if matchRE fn then (d ++ fn) :: qualifyLoop d matchRE rest
    else qualifyLoop d matchRE rest

/-- rslurp.go:205-215: resolve a listing page's links into download
addresses. -/
def filterAndQualify (links : List String) (matchRE : String → Bool) (d : String) : List String :=
  qualifyLoop (if d.data.getLast? = some '/' then d else d ++ "/") matchRE links

/-- What the end of the run prints and which exit code the process ends
with. -/
structure ProcOut where
  stdoutLines : List String
  exitCode : Nat
deriving DecidableEq

/-- rslurp.go:315-318, the tail of `main`: when `errorCount > 0`, print
the error summary and exit with status 1; otherwise fall off `main`
(exit status 0, nothing printed). -/
def mainFinish (errorCount : Nat) : ProcOut :=
  if errorCount > 0 then
    { stdoutLines := ["Number of errors: " ++ toString errorCount], exitCode := 1 }
  else
    { stdoutLines := [], exitCode := 0 }

lemma slurp_rangeStart_eq (env : Env) (o : OrderInput) (hdry : env.dryRunFlag = false) :
    (slurp env o).rangeStart
      = (if env.caps.supportsResume then env.stat (destPath env.outDir o.url) else none) := by
  simp only [slurp, hdry, Bool.false_eq_true, if_false]
  split
  · rfl
  · split
    · rfl
    · split
      · split
        · rfl
        · rfl
      · rfl

def envC2 : Env :=
  { dryRunFlag := false, outDir := ".",
    caps := { supportsResume := true, fixedSizeOnly := false },
    stat := fun p => if p = "f.bin" then some 42 else none }

def orderC2 : OrderInput :=
  { url := "http://mirror/pub/f.bin",
    transfer := { netFail := false, status := 206, contentLength := 58, body := [1, 2] } }

/-- C2: outside dry run, the request built by `slurp` carries a Range
header starting at `s` exactly when the sink reports resume support
(`HasPartial`) and `os.Stat` finds a file of size `s` at the computed
destination path; when either condition fails no Range header is set. -/
theorem C2_range_header_iff (env : Env) (o : OrderInput) (s : Nat)
    (hdry : env.dryRunFlag = false) :
    (slurp env o).rangeStart = some s ↔
      env.caps.supportsResume = true ∧ env.stat (destPath env.outDir o.url) = some s := by
  rw [slurp_rangeStart_eq env o hdry]
  cases h : env.caps.supportsResume <;> simp [h]

/-- Witness for C2: with a resume-capable sink and a 42-byte file already
at the destination, the request asks for bytes from 42 on. -/
theorem C2_range_header_iff_witness :
    (slurp envC2 orderC2).rangeStart = some 42 :=
  (C2_range_header_iff envC2 orderC2 42 rfl).mpr ⟨rfl, by decide⟩

def envC1 : Env :=
  { dryRunFlag := false, outDir := ".",
    caps := { supportsResume := false, fixedSizeOnly := true },
    stat := fun _ => none }

def orderC1 : OrderInput :=
  { url := "http://example/dir/a.bin",
    transfer := { netFail := false, status := 206, contentLength := -1, body := [7, 7] } }

/-- C1 counterexample: a 206 response handled by a fixed-size-only sink
with no declared content length is a successful transfer in which the
destination is never opened via `Append` — the body is buffered and the
destination is opened via `Create` instead (rslurp.go:103-109, 128-141) —
refuting the claim that status 206 always opens the destination via the
sink's `Append`. -/
theorem C1_counterexample :
    orderC1.transfer.status = 206 ∧
    (slurp envC1 orderC1).err = none ∧
    (slurp envC1 orderC1).events.all (fun e => !e.isAppendOp) = true ∧
    (slurp envC1 orderC1).events.any (fun e => e.isCreateOp) = true := by
  decide

/-- C1 (amended): outside dry run and network failure, the response
status determines the action — 200 opens the destination via `Create` and
206 via `Append`, except that when the sink is fixed-size-only and no
content length was declared the body is buffered and the destination is
opened via `Create` with the measured length; 416 returns nil with no
write; any other status returns an error with no write. -/
theorem C1_status_dispatch (env : Env) (o : OrderInput)
    (hdry : env.dryRunFlag = false) (hnet : o.transfer.netFail = false) :
    (o.transfer.status = 200 →
      ¬(env.caps.fixedSizeOnly = true ∧ o.transfer.contentLength < 0) →
      (slurp env o).events
        = [Event.createOp (destPath env.outDir o.url) o.transfer.contentLength,
           Event.sinkWrite o.transfer.body]) ∧
    (o.transfer.status = 206 →
      ¬(env.caps.fixedSizeOnly = true ∧ o.transfer.contentLength < 0) →
      (slurp env o).events
        = [Event.appendOp (destPath env.outDir o.url) o.transfer.contentLength,
           Event.sinkWrite o.transfer.body]) ∧
    ((o.transfer.status = 200 ∨ o.transfer.status = 206) →
      env.caps.fixedSizeOnly = true → o.transfer.contentLength < 0 →
      (slurp env o).events
        = [Event.tempWrite o.transfer.body,
           Event.createOp (destPath env.outDir o.url) (Int.ofNat o.transfer.body.length),
           Event.sinkWrite o.transfer.body]) ∧
    (o.transfer.status = 416 →
      (slurp env o).err = none ∧ (slurp env o).events = []) ∧
    (o.transfer.status ≠ 200 → o.transfer.status ≠ 206 → o.transfer.status ≠ 416 →
      (slurp env o).err = some (.statusError o.transfer.status) ∧
      (slurp env o).events = []) := by
  refine ⟨?_, ?_, ?_, ?_, ?_⟩
  · intro hst hnb
    simp [slurp, hdry, hnet, hst, hnb]
  · intro hst hnb
    simp [slurp, hdry, hnet, hst, hnb]
  · intro hst hfix hcl
    rcases hst with hst | hst <;> simp [slurp, hdry, hnet, hst, hfix, hcl]
  · intro hst
    simp [slurp, hdry, hnet, hst]
  · intro h200 h206 h416
    simp [slurp, hdry, hnet, h200, h206, h416]

def envC1w : Env :=
  { dryRunFlag := false, outDir := "out",
    caps := { supportsResume := true, fixedSizeOnly := false },
    stat := fun _ => none }

def orderC1w : OrderInput :=
  { url := "http://example/dir/b.bin",
    transfer := { netFail := false, status := 200, contentLength := 3, body := [1, 2, 3] } }

/-- Witness for C1 (amended): a plain 200 response with a known length on
a streaming sink opens the destination via `Create` and streams the body. -/
theorem C1_status_dispatch_witness :
    (slurp envC1w orderC1w).events
      = [Event.createOp (destPath envC1w.outDir orderC1w.url) orderC1w.transfer.contentLength,
         Event.sinkWrite orderC1w.transfer.body] :=
  (C1_status_dispatch envC1w orderC1w rfl rfl).1 rfl (by decide)

/-- C3: on a successful status (200 or 206), when the sink is
fixed-size-only and the response declared no content length, `slurp`
first buffers the whole body into the scratch temp file and only then
opens the final destination via `Create` with exactly the measured byte
length and copies the buffered bytes across; in every other case the body
is streamed directly into the sink-provided writer and the temp file is
never touched. -/
theorem C3_two_phase_buffering (env : Env) (o : OrderInput)
    (hdry : env.dryRunFlag = false) (hnet : o.transfer.netFail = false)
    (hst : o.transfer.status = 200 ∨ o.transfer.status = 206) :
    (env.caps.fixedSizeOnly = true ∧ o.transfer.contentLength < 0 →
      (slurp env o).events
        = [Event.tempWrite o.transfer.body,
           Event.createOp (destPath env.outDir o.url) (Int.ofNat o.transfer.body.length),
           Event.sinkWrite o.transfer.body]) ∧
    (¬(env.caps.fixedSizeOnly = true ∧ o.transfer.contentLength < 0) →
      (slurp env o).events
        = [if o.transfer.status = 206 then
             Event.appendOp (destPath env.outDir o.url) o.transfer.contentLength
           else
             Event.createOp (destPath env.outDir o.url) o.transfer.contentLength,
           Event.sinkWrite o.transfer.body] ∧
      (slurp env o).events.all (fun e => !e.isTempWrite) = true) := by
  constructor
  · intro hb
    rcases hst with hst | hst <;> simp [slurp, hdry, hnet, hst, hb.1, hb.2]
  · intro hnb
    rcases hst with hst | hst <;>
      simp [slurp, hdry, hnet, hst, hnb, Event.isTempWrite]

def envC3 : Env :=
  { dryRunFlag := false, outDir := ".",
    caps := { supportsResume := false, fixedSizeOnly := true },
    stat := fun _ => none }

def orderC3 : OrderInput :=
  { url := "http://example/dir/c.bin",
    transfer := { netFail := false, status := 200, contentLength := -1, body := [9, 8, 7] } }

/-- Witness for C3: a 200 response with unknown length on a
fixed-size-only sink buffers the 3-byte body, then creates the
destination with declared size 3 and copies the bytes across. -/
theorem C3_two_phase_buffering_witness :
    (slurp envC3 orderC3).events
      = [Event.tempWrite [9, 8, 7],
         Event.createOp (destPath envC3.outDir orderC3.url) (Int.ofNat 3),
         Event.sinkWrite [9, 8, 7]] :=
  (C3_two_phase_buffering envC3 orderC3 rfl rfl (Or.inl rfl)).1 ⟨rfl, by decide⟩

/-- C8: a resume request (Range header set) answered with status 416
returns nil before any sink writer is opened: no `Create`, `Append` or
write event occurs, the byte counter does not move, and the worker loop
reports the order through the same `fileDone` completion event as a
success. -/
theorem C8_416_leaves_destination (env : Env) (o : OrderInput) (s : Nat) (st : WorkerState)
    (hdry : env.dryRunFlag = false) (hnet : o.transfer.netFail = false)
    (hres : (slurp env o).rangeStart = some s)
    (hst : o.transfer.status = 416) :
    (slurp env o).events = [] ∧
    (slurp env o).counterDelta = 0 ∧
    (slurp env o).err = none ∧
    (slurper env [o] st).uiEvents = st.uiEvents ++ [UiMsg.fileDone o.url] := by
  have herr : (slurp env o).err = none := by
    simp [slurp, hdry, hnet, hst]
  refine ⟨?_, ?_, herr, ?_⟩
  · simp [slurp, hdry, hnet, hst]
  · simp [slurp, hdry, hnet, hst]
  · simp [slurper, herr]

def envC8 : Env :=
  { dryRunFlag := false, outDir := ".",
    caps := { supportsResume := true, fixedSizeOnly := false },
    stat := fun _ => some 5 }

def orderC8 : OrderInput :=
  { url := "http://example/dir/d.bin",
    transfer := { netFail := false, status := 416, contentLength := -1, body := [] } }

/-- Witness for C8: a resume request for a 5-byte local file answered
with 416 performs no sink action and is reported complete. -/
theorem C8_416_leaves_destination_witness :
    (slurp envC8 orderC8).events = [] ∧
    (slurp envC8 orderC8).counterDelta = 0 ∧
    (slurp envC8 orderC8).err = none ∧
    (slurper envC8 [orderC8] ⟨0, [], []⟩).uiEvents
      = ([] : List UiMsg) ++ [UiMsg.fileDone orderC8.url] :=
  C8_416_leaves_destination envC8 orderC8 5 ⟨0, [], []⟩ rfl rfl (by decide) rfl

/-- The log lines a worker writes for the failing orders of a list, in
order: the failed address shown via `path.Base`, with the cause
(rslurp.go:159). -/
def failLogs (env : Env) : List OrderInput → List (String × SlurpErr)
  | [] => []
  | o :: rest =>
    match (slurp env o).err with
    | some e => (goPathBase o.url, e) :: failLogs env rest
    | none => failLogs env rest

/-- C4: the worker loop handles every order of its list — for each failing
order it appends exactly one log line naming `path.Base` of the failed
address and the cause and adds exactly one to the run-wide failure
counter, then continues; every order contributes exactly one log line or
one completion event, so no failure terminates the loop early. -/
theorem C4_failures_isolated (env : Env) (orders : List OrderInput) (st : WorkerState) :
    (slurper env orders st).errorCount
      = st.errorCount + (orders.filter (fun o => ((slurp env o).err).isSome)).length ∧
    (slurper env orders st).logs = st.logs ++ failLogs env orders ∧
    (slurper env orders st).logs.length + (slurper env orders st).uiEvents.length
      = st.logs.length + st.uiEvents.length + orders.length := by
  induction orders generalizing st with
  | nil => simp [slurper, failLogs]
  | cons o rest ih =>
    cases h : (slurp env o).err with
    | some e =>
      have hrec := ih { st with errorCount := st.errorCount + 1,
                                logs := st.logs ++ [(goPathBase o.url, e)] }
      refine ⟨?_, ?_, ?_⟩
      · simp only [slurper, h]
        rw [hrec.1]
        simp [List.filter_cons, h]
        omega
      · simp only [slurper, h]
        rw [hrec.2.1]
        simp [failLogs, h]
      · simp only [slurper, h]
        have h3 := hrec.2.2
        simp only [List.length_append, List.length_cons, List.length_nil] at h3 ⊢
        omega
    | none =>
      have hrec := ih { st with uiEvents := st.uiEvents ++ [.fileDone o.url] }
      refine ⟨?_, ?_, ?_⟩
      · simp only [slurper, h]
        rw [hrec.1]
        simp [List.filter_cons, h]
      · simp only [slurper, h]
        rw [hrec.2.1]
        simp [failLogs, h]
      · simp only [slurper, h]
        have h3 := hrec.2.2
        simp only [List.length_append, List.length_cons, List.length_nil] at h3 ⊢
        omega

/-- C9: the worker emits `fileDone` for exactly the orders whose `slurp`
returned nil, and through the very same event constructor in every such
case; in particular a dry-run order and a 416-answered resume order both
return nil, so they are indistinguishable from a normal success in the
event stream. -/
theorem C9_filedone_iff_nil_error (env : Env) (orders : List OrderInput)
    (st : WorkerState) (o : OrderInput) :
    ((slurper env orders st).uiEvents
      = st.uiEvents
        ++ (orders.filter (fun o => ((slurp env o).err).isNone)).map
             (fun o => UiMsg.fileDone o.url)) ∧
    (env.dryRunFlag = true → (slurp env o).err = none ∧ (slurp env o).events = []) ∧
    (env.dryRunFlag = false → o.transfer.netFail = false → o.transfer.status = 416 →
      (slurp env o).err = none) := by
  refine ⟨?_, ?_, ?_⟩
  · induction orders generalizing st with
    | nil => simp [slurper]
    | cons o rest ih =>
      cases h : (slurp env o).err with
      | some e =>
        simp only [slurper, h]
        rw [ih]
        simp [List.filter, h]
      | none =>
        simp only [slurper, h]
        rw [ih]
        simp [List.filter, h]
  · intro hdry
    simp [slurp, hdry]
  · intro hdry hnet hst
    simp [slurp, hdry, hnet, hst]

def envC9 : Env :=
  { dryRunFlag := true, outDir := ".",
    caps := { supportsResume := true, fixedSizeOnly := false },
    stat := fun _ => none }

def orderC9 : OrderInput :=
  { url := "http://example/dir/e.bin",
    transfer := { netFail := false, status := 500, contentLength := -1, body := [] } }

/-- Witness for C9: under dry run even an order whose exchange would have
status 500 returns nil with no action, and the one-order worker loop
reports it as a completed file. -/
theorem C9_filedone_iff_nil_error_witness :
    (slurp envC9 orderC9).err = none ∧ (slurp envC9 orderC9).events = [] ∧
    (slurper envC9 [orderC9] ⟨0, [], []⟩).uiEvents
      = ([] : List UiMsg)
        ++ ([orderC9].filter (fun o => ((slurp envC9 o).err).isNone)).map
             (fun o => UiMsg.fileDone o.url) :=
  have h := C9_filedone_iff_nil_error envC9 [orderC9] ⟨0, [], []⟩ orderC9
  ⟨(h.2.1 rfl).1, (h.2.1 rfl).2, h.1⟩

lemma le_counterAfter (init : Nat) (l : List Nat) : init ≤ counterAfter init l := by
  induction l generalizing init with
  | nil => simp [counterAfter]
  | cons a l ih =>
    have h1 : counterAfter init (a :: l) = counterAfter (init + a) l := rfl
    calc init ≤ init + a := Nat.le_add_right _ _
      _ ≤ counterAfter (init + a) l := ih (init + a)
      _ = counterAfter init (a :: l) := h1.symm

/-- C7: the shared byte counter only ever grows — every `readWrapper.Read`
adds the bytes just read, so the value at any earlier sample point (after
`i` of the run's reads) is at most the value at any later one — and a
transfer contributes its body length to the counter exactly once, also on
the buffer-then-copy path where the same bytes are written twice. -/
theorem C7_counter_monotone (init : Nat) (reads : List Nat) (i j : Nat)
    (env : Env) (o : OrderInput) (hij : i ≤ j)
    (hdry : env.dryRunFlag = false) (hnet : o.transfer.netFail = false)
    (hst : o.transfer.status = 200 ∨ o.transfer.status = 206) :
    counterAfter init (reads.take i) ≤ counterAfter init (reads.take j) ∧
    (slurp env o).counterDelta = o.transfer.body.length := by
  constructor
  · have hsplit : reads.take j = reads.take i ++ (reads.drop i).take (j - i) := by
      have hj : i + (j - i) = j := by omega
      calc reads.take j = reads.take (i + (j - i)) := by rw [hj]
        _ = reads.take i ++ (reads.drop i).take (j - i) := List.take_add reads i (j - i)
    rw [hsplit]
    unfold counterAfter
    rw [List.foldl_append]
    exact le_counterAfter _ _
  · by_cases hb : env.caps.fixedSizeOnly = true ∧ o.transfer.contentLength < 0 <;>
      rcases hst with hst | hst <;>
      simp [slurp, hdry, hnet, hst, hb]

def envC7 : Env :=
  { dryRunFlag := false, outDir := ".",
    caps := { supportsResume := false, fixedSizeOnly := true },
    stat := fun _ => none }

def orderC7 : OrderInput :=
  { url := "http://example/dir/g.bin",
    transfer := { netFail := false, status := 200, contentLength := -1, body := [4, 4] } }

/-- Witness for C7: after one of three reads the counter is at most its
value after all three, and a buffered 2-byte transfer moves the counter
by exactly 2. -/
theorem C7_counter_monotone_witness :
    counterAfter 0 ([3, 5, 2].take 1) ≤ counterAfter 0 ([3, 5, 2].take 3) ∧
    (slurp envC7 orderC7).counterDelta = orderC7.transfer.body.length :=
  C7_counter_monotone 0 [3, 5, 2] 1 3 envC7 orderC7 (by decide) rfl rfl (Or.inl rfl)

lemma qualifyLoop_eq (d' : String) (matchRE : String → Bool) (links : List String) :
    qualifyLoop d' matchRE links
      = (links.filter (fun fn => !(fn.data.contains '/') && matchRE fn)).map
          (fun fn => d' ++ fn) := by
  induction links with
  | nil => simp [qualifyLoop]
  | cons fn rest ih =>
    by_cases h1 : '/' ∈ fn.data
    · simp [qualifyLoop, List.filter_cons, h1, ih]
    · by_cases h2 : matchRE fn = true
      · simp [qualifyLoop, List.filter_cons, h1, h2, ih]
      · simp [qualifyLoop, List.filter_cons, h1, h2, ih]

/-- C6: a link is resolved into a download address exactly when it
contains no '/' and the filter accepts it, the address being the listing
address (trailing slash ensured) concatenated with the link; on the
spec's example listing the three links resolve to exactly the two
direct-child addresses. -/
theorem C6_link_resolution (links : List String) (matchRE : String → Bool) (d : String) :
    filterAndQualify links matchRE d
      = (links.filter (fun fn => !(fn.data.contains '/') && matchRE fn)).map
          (fun fn => (if d.data.getLast? = some '/' then d else d ++ "/") ++ fn) ∧
    filterAndQualify ["a.txt", "b.txt", "sub/c.txt"]
        (fun s => s.data.reverse.take 4 == ['t', 'x', 't', '.']) "http://example/dir/"
      = ["http://example/dir/a.txt", "http://example/dir/b.txt"] := by
  constructor
  · exact qualifyLoop_eq _ matchRE links
  · decide

/-- C10: the destination `slurp` opens is `path.Join` of the output
directory and `path.Base` of the order's URL, so any two orders whose
URLs share a basename resolve to the same destination — concretely, the
same filename reached from two different listing pages lands on one path. -/
theorem C10_same_basename_same_dest (env : Env) (o : OrderInput) (outD u1 u2 : String)
    (hdry : env.dryRunFlag = false) (hnet : o.transfer.netFail = false)
    (hst : o.transfer.status = 200) (hcl : 0 ≤ o.transfer.contentLength)
    (hbase : goPathBase u1 = goPathBase u2) :
    (slurp env o).events
      = [Event.createOp (goPathJoin env.outDir (goPathBase o.url)) o.transfer.contentLength,
         Event.sinkWrite o.transfer.body] ∧
    destPath outD u1 = destPath outD u2 ∧
    destPath "." "http://mirror-a/pub/data.bin" = destPath "." "http://mirror-b/other/data.bin" := by
  refine ⟨?_, ?_, by decide⟩
  · have hnb : ¬(env.caps.fixedSizeOnly = true ∧ o.transfer.contentLength < 0) := by
      rintro ⟨-, hlt⟩
      omega
    simp [slurp, hdry, hnet, hst, hnb, destPath]
  · unfold destPath
    rw [hbase]

def envC10 : Env :=
  { dryRunFlag := false, outDir := ".",
    caps := { supportsResume := true, fixedSizeOnly := false },
    stat := fun _ => none }

def orderC10 : OrderInput :=
  { url := "http://mirror-a/pub/data.bin",
    transfer := { netFail := false, status := 200, contentLength := 1, body := [5] } }

/-- Witness for C10: a 200 transfer of `http://mirror-a/pub/data.bin`
creates `path.Join(".", "data.bin")`, and the same basename reached from
`http://mirror-b/other/` collides with it. -/
theorem C10_same_basename_same_dest_witness :
    (slurp envC10 orderC10).events
      = [Event.createOp (goPathJoin envC10.outDir (goPathBase orderC10.url))
           orderC10.transfer.contentLength,
         Event.sinkWrite orderC10.transfer.body] ∧
    destPath "." "http://mirror-a/pub/data.bin" = destPath "." "http://mirror-b/other/data.bin" :=
  have h := C10_same_basename_same_dest envC10 orderC10 "."
    "http://mirror-a/pub/data.bin" "http://mirror-b/other/data.bin"
    rfl rfl rfl (by decide) (by decide)
  ⟨h.1, h.2.1⟩

/-- C5: the process ends with exit code 0 exactly when the run-wide
failure counter is zero; when it is nonzero the error summary line is
printed and the exit code is 1. -/
theorem C5_exit_code (n : Nat) :
    ((mainFinish n).exitCode = 0 ↔ n = 0) ∧
    (0 < n → (mainFinish n).exitCode = 1 ∧
      (mainFinish n).stdoutLines = ["Number of errors: " ++ toString n]) := by
  by_cases h : n = 0
  · subst h
    simp [mainFinish]
  · have hp : 0 < n := Nat.pos_of_ne_zero h
    simp [mainFinish, hp, h]

/-- Witness for C5: with 2 recorded failures the run prints the summary
and exits with status 1. -/
theorem C5_exit_code_witness :
    (mainFinish 2).exitCode = 1 ∧
    (mainFinish 2).stdoutLines = ["Number of errors: " ++ toString 2] :=
  (C5_exit_code 2).2 (by decide)
